import Mathlib

/-!
Shallow embedding of the core of the combo pass (ir/opt/combo.c):
Click style combined constant propagation and congruence partitioning.

The lattice sentinels (Top, Bottom, Reachable, boolean true and false)
are pointers to distinguished tarval objects in the source.  Their
definitions live in the external tarval library, outside the given
sources; following the data model of the specification we represent
them as distinct values of an inductive type.  Inside combo.c the
macro tarval_unreachable is redefined to tarval_top, which the aliases
below reproduce.
-/

namespace Combo

/-- An IR mode: an identifier plus the floating point flag, which is all
the transfer functions of the pass inspect. -/
structure IRMode where
  mid : Nat
  isFloat : Bool
deriving DecidableEq, Repr

/-- A tarval: the sentinels used by combo.c plus concrete constants. -/
inductive Tarval where
  | top
  | bad
  | reachable
  | bfalse
  | btrue
  | intval (m : IRMode) (v : Int)
deriving DecidableEq, Repr

def tarval_top : Tarval := .top

def tarval_bottom : Tarval := .bad

def tarval_bad : Tarval := .bad

def tarval_undefined : Tarval := .top

def tarval_reachable : Tarval := .reachable

/-- combo.c line 210: tarval_unreachable is redefined to tarval_top. -/
def tarval_unreachable : Tarval := .top

def tarval_b_true : Tarval := .btrue

def tarval_b_false : Tarval := .bfalse

/-- lattice_elem_t: a union of a tarval and a symbolic constant entity. -/
inductive LatticeElem where
  | tv (t : Tarval)
  | sym (entity : Nat)
deriving DecidableEq, Repr

/-- is_tarval over the union member. -/
def is_tarval : LatticeElem → Bool
  | .tv _ => true
  | .sym _ => false

/-- tarval_is_constant: everything except the Top and Bottom sentinels. -/
def tarval_is_constant : Tarval → Bool
  | .top => false
  | .bad => false
  | _ => true

/-- is_con (combo.c line 1782): a constant tarval or an entity. -/
def is_con : LatticeElem → Bool
  | .tv t => tarval_is_constant t
  | .sym _ => true

/-- is_constant_type (combo.c line 1355). -/
def is_constant_type (t : LatticeElem) : Bool :=
  if t ≠ .tv tarval_bottom ∧ t ≠ .tv tarval_top then true else false

/-- get_mode_null: the zero constant of a mode. -/
def get_mode_null (m : IRMode) : Tarval := .intval m 0

/-- tarval_is_null: the value is the zero of its mode. -/
def tarval_is_null : Tarval → Bool
  | .intval _ v => v == 0
  | .bfalse => true
  | _ => false

/-- combo() line 3543: env.opt_unknown is hardcoded to 1. -/
def combo_opt_unknown : Bool := true

/-- combo() lines 3553-3556: the tarval assigned to Unknown nodes. -/
def combo_tarval_UNKNOWN : Tarval :=
  if combo_opt_unknown then tarval_top else tarval_bad

/-- compute_Unknown (combo.c line 1964): assigns the configured tarval. -/
def compute_Unknown (tarvalUNKNOWN : Tarval) : Tarval := tarvalUNKNOWN

/-- verify_type (combo.c lines 476-491): returns true when the transition
from old to new does not panic. -/
def verify_type_accepts (old new : LatticeElem) : Bool :=
  if old = new then true
  else if old = .tv tarval_top then true
  else if new = .tv tarval_bottom then true
  else if new = .tv tarval_reachable then true
  else false

/-- The acceptance predicate exactly as claim C3 words it. -/
def mono_claim_ok (old new : LatticeElem) : Prop :=
  old = .tv tarval_top ∨ new = .tv tarval_bottom ∨ old = new

/-- compute_Proj_Cond (combo.c lines 2268-2362).  Arguments: the configured
tarval for Unknown nodes, whether the Proj is the true output, the current
type of the Proj and the current type of the Cond selector. -/
def compute_Proj_Cond (tarvalUNKNOWN : Tarval) (isTrueProj : Bool)
    (cur sel : Tarval) : Tarval :=
  if cur = tarval_reachable then cur
  else if isTrueProj then
    if sel = tarval_b_false then tarval_unreachable
    else if sel = tarval_b_true then tarval_reachable
    else if sel = tarval_bottom then tarval_reachable
    else if tarvalUNKNOWN = tarval_top then tarval_unreachable
    else tarval_unreachable
  else
    if sel = tarval_b_false then tarval_reachable
    else if sel = tarval_b_true then tarval_unreachable
    else if sel = tarval_bottom then tarval_reachable
    else if tarvalUNKNOWN = tarval_top then tarval_reachable
    else tarval_unreachable

/-- The amended behaviour of compute_Proj_Cond under the configuration that
combo() installs: a Reachable Proj latches; a decided selector picks the
matching output; a Bottom selector enables both outputs; any other selector
(Top) disables the true output but enables the false output, because
combo() sets tarval_UNKNOWN to Top. -/
def proj_cond_amended_spec (isTrueProj : Bool) (cur sel : Tarval) : Tarval :=
  if cur = tarval_reachable then cur
  else if sel = tarval_b_true then
    if isTrueProj then tarval_reachable else tarval_unreachable
  else if sel = tarval_b_false then
    if isTrueProj then tarval_unreachable else tarval_reachable
  else if sel = tarval_bottom then tarval_reachable
  else if isTrueProj then tarval_unreachable
  else tarval_reachable

/-- Extract the tarval member of the union; only used under an is_tarval
guard, the fallback value is never reached. -/
def getTarval : LatticeElem → Tarval
  | .tv t => t
  | .sym _ => tarval_bad

/-- is_entity on the union member: a tarval is never an entity. -/
def isEntity : LatticeElem → Bool
  | .sym _ => true
  | .tv _ => false

/-- The part of the analysis state that compute_Sub and compute_Eor read:
the operand types, the operand partitions, the mode of the left operand,
the mode of the node and the current type of the node. -/
structure BinState where
  aType : LatticeElem
  bType : LatticeElem
  lPart : Nat
  rPart : Nat
  lMode : IRMode
  nodeMode : IRMode
  curType : LatticeElem
deriving DecidableEq, Repr

/-- compute_Sub (combo.c lines 2135-2175), parameterised by the external
tarval_sub oracle. -/
def compute_Sub (tvSub : Tarval → Tarval → IRMode → Tarval)
    (st : BinState) : LatticeElem :=
  let a := st.aType
  let b := st.bType
  if a = .tv tarval_top ∨ b = .tv tarval_top then .tv tarval_top
  else if is_con a ∧ is_con b then
    if is_tarval a ∧ is_tarval b then
      .tv (tvSub (getTarval a) (getTarval b) st.nodeMode)
    else if is_tarval a ∧ tarval_is_null (getTarval a) then b
    else if is_tarval b ∧ tarval_is_null (getTarval b) then a
    else .tv tarval_bottom
  else if st.rPart = st.lPart ∧ st.lMode.isFloat = false then
    let tv := get_mode_null st.nodeMode
    .tv (if st.curType ≠ .tv tv then tarval_bottom else tv)
  else .tv tarval_bottom

/-- compute_Eor (combo.c lines 2182-2217), parameterised by the external
tarval_eor oracle.  Note: the congruence branch has no floating point
check, unlike compute_Sub. -/
def compute_Eor (tvEor : Tarval → Tarval → Tarval)
    (st : BinState) : LatticeElem :=
  let a := st.aType
  let b := st.bType
  if a = .tv tarval_top ∨ b = .tv tarval_top then .tv tarval_top
  else if is_con a ∧ is_con b then
    if is_tarval a ∧ is_tarval b then
      .tv (tvEor (getTarval a) (getTarval b))
    else if is_tarval a ∧ tarval_is_null (getTarval a) then b
    else if is_tarval b ∧ tarval_is_null (getTarval b) then a
    else .tv tarval_bottom
  else if st.rPart = st.lPart then
    let tv := get_mode_null st.nodeMode
    .tv (if st.curType ≠ .tv tv then tarval_bottom else tv)
  else .tv tarval_bottom

/-- default_compute (combo.c lines 1886-1906) restricted to a data node:
Top if any input is Top, else the external computed_value oracle. -/
def default_compute_data (computedValue : Tarval) (modeIsX : Bool)
    (inputs : List LatticeElem) : LatticeElem :=
  if inputs.any (fun p => p = .tv tarval_top) then .tv tarval_top
  else if modeIsX then .tv tarval_reachable
  else .tv computedValue

/-- The analysis state that compute_Cmp reads; computedValue is the answer
of the external constant folding oracle for this node. -/
structure CmpState where
  aType : LatticeElem
  bType : LatticeElem
  lPart : Nat
  rPart : Nat
  lMode : IRMode
  relHasEqual : Bool
  curType : LatticeElem
  computedValue : Tarval
deriving DecidableEq, Repr

/-- compute_Cmp (combo.c lines 2224-2260). -/
def compute_Cmp (st : CmpState) : LatticeElem :=
  let a := st.aType
  let b := st.bType
  if a = .tv tarval_top ∨ b = .tv tarval_top then .tv tarval_undefined
  else if is_con a ∧ is_con b then
    default_compute_data st.computedValue false [a, b]
  else if st.rPart = st.lPart ∧ st.lMode.isFloat = false then
    let tv := if st.relHasEqual then tarval_b_true else tarval_b_false
    let tv :=
      if st.curType = .tv tarval_bottom then tarval_bottom
      else if st.curType ≠ .tv tv ∧ is_constant_type st.curType then tarval_bottom
      else tv
    .tv tv
  else .tv tarval_bottom

/-- Oracle instance used only to close witness statements; the theorems
hold for every oracle function. -/
def tarval_sub_oracle : Tarval → Tarval → IRMode → Tarval :=
  fun _ _ _ => tarval_bad

/-- Oracle instance used only to close witness statements; the theorems
hold for every oracle function. -/
def tarval_eor_oracle : Tarval → Tarval → Tarval :=
  fun _ _ => tarval_bad

/-- A floating point mode, used in concrete counterexample states. -/
def floatMode : IRMode := ⟨1, true⟩

/-- Concrete Eor state: same partition, floating mode, both operands
Bottom, current type already zero. -/
def eorFloatState : BinState :=
  { aType := .tv tarval_bottom
    bType := .tv tarval_bottom
    lPart := 0
    rPart := 0
    lMode := floatMode
    nodeMode := floatMode
    curType := .tv (get_mode_null floatMode) }

/-- The analysis state that compute_Phi reads: the type of the Phi block
and, per input, the type of the control flow predecessor of the block and
the type of the data predecessor. -/
structure PhiState where
  blockType : Tarval
  preds : List (Tarval × LatticeElem)
deriving DecidableEq, Repr

/-- The loop of compute_Phi (combo.c lines 2059-2085): the running meet
over one input list, with the skip, bottom, first constant and conflict
cases of the source. -/
def phi_meet_loop : LatticeElem → List (Tarval × LatticeElem) → LatticeElem
  | ty, [] => ty
  | ty, p :: rest =>
    if p.1 = tarval_unreachable ∨ p.2 = .tv tarval_top then phi_meet_loop ty rest
    else if p.2 = .tv tarval_bottom then .tv tarval_bottom
    else if ty = .tv tarval_top then phi_meet_loop p.2 rest
    else if ty ≠ p.2 then .tv tarval_bottom
    else phi_meet_loop ty rest

/-- compute_Phi (combo.c lines 2045-2086): Top in an unreachable block,
else the meet loop over the inputs, iterated from the highest index down
to zero as in the source. -/
def compute_Phi (st : PhiState) : LatticeElem :=
  if st.blockType = tarval_unreachable then .tv tarval_top
  else phi_meet_loop (.tv tarval_top) st.preds.reverse

/-- The contributing inputs in the words of claim C5: those whose control
flow predecessor is Reachable, with Top inputs ignored. -/
def phi_contributing (preds : List (Tarval × LatticeElem)) : List LatticeElem :=
  (preds.filter (fun p => p.1 = tarval_reachable ∧ p.2 ≠ .tv tarval_top)).map
    (fun p => p.2)

/-- All entries of the list agree with each other. -/
def allSame (cs : List LatticeElem) : Prop :=
  ∀ x ∈ cs, ∀ y ∈ cs, x = y

instance (cs : List LatticeElem) : Decidable (allSame cs) := by
  unfold allSame
  infer_instance

/-- The meet in the words of claim C5: Top when no input contributes,
Bottom when a contributing input is Bottom or two contributing inputs
differ, else the common value. -/
def phi_meet_claim : List LatticeElem → LatticeElem
  | [] => .tv tarval_top
  | c :: rest =>
    if (.tv tarval_bottom) ∈ c :: rest then .tv tarval_bottom
    else if allSame (c :: rest) then c
    else .tv tarval_bottom

/-- Claim C5 as worded, as a function of the same state. -/
def compute_Phi_claim (st : PhiState) : LatticeElem :=
  if st.blockType = tarval_unreachable then .tv tarval_top
  else phi_meet_claim (phi_contributing st.preds)

/-- The meet loop restricted to an already filtered input list. -/
def meetList : LatticeElem → List LatticeElem → LatticeElem
  | ty, [] => ty
  | ty, c :: rest =>
    if c = .tv tarval_bottom then .tv tarval_bottom
    else if ty = .tv tarval_top then meetList c rest
    else if ty ≠ c then .tv tarval_bottom
    else meetList ty rest

/-- A partition as far as update_worklist reads it. -/
structure PartitionInfo where
  n_leader : Nat
  on_worklist : Bool
deriving DecidableEq, Repr

/-- Which of the two split halves is passed to add_to_worklist. -/
inductive WlChoice where
  | zPart
  | zPrime
deriving DecidableEq, Repr

/-- update_worklist (combo.c lines 872-879): if Z is on the worklist, or
Z prime has strictly fewer leaders, enqueue Z prime, else enqueue Z. -/
def update_worklist (z zp : PartitionInfo) : WlChoice :=
  if z.on_worklist = true ∨ zp.n_leader < z.n_leader then .zPrime else .zPart

/-- Leader count of the half that update_worklist enqueues. -/
def enqueued_leader_count (z zp : PartitionInfo) : Nat :=
  match update_worklist z zp with
  | .zPrime => zp.n_leader
  | .zPart => z.n_leader

/-- Leader count of the half that update_worklist does not enqueue. -/
def other_leader_count (z zp : PartitionInfo) : Nat :=
  match update_worklist z zp with
  | .zPrime => z.n_leader
  | .zPart => zp.n_leader

/-- An opcode as far as the cprop queue split inspects it. -/
inductive COp where
  | Cond
  | Switch
  | Other
deriving DecidableEq, Repr

/-- A node as far as add_to_cprop inspects it: its opcode, whether it is a
Proj and the opcode of the Proj predecessor. -/
structure CNode where
  nid : Nat
  op : COp
  isProj : Bool
  predOp : COp
deriving DecidableEq, Repr

/-- skip_Proj at the opcode level. -/
def skip_Proj_op (n : CNode) : COp :=
  if n.isProj then n.predOp else n.op

/-- The classification of add_to_cprop (combo.c lines 826-830): Cond and
Switch nodes and their Projs go to the cprop_X list. -/
def goes_to_cprop_X (n : CNode) : Bool :=
  skip_Proj_op n = .Cond ∨ skip_Proj_op n = .Switch

/-- The two inner cprop lists of one partition. -/
structure CpropQueues where
  cprop : List CNode
  cprop_X : List CNode
deriving DecidableEq, Repr

/-- add_to_cprop (combo.c lines 817-862), restricted to the list insertion:
the node is appended to cprop_X when it is a Cond, a Switch or a Proj of
one, else to the ordinary cprop list. -/
def add_to_cprop (n : CNode) (q : CpropQueues) : CpropQueues :=
  if goes_to_cprop_X n then { q with cprop_X := q.cprop_X ++ [n] }
  else { q with cprop := q.cprop ++ [n] }

/-- The pick step of the propagate drain loop (combo.c lines 2811-2834):
an entry of cprop_X is taken only when the ordinary cprop list is empty. -/
def cprop_pick (q : CpropQueues) : Option (CNode × CpropQueues) :=
  match q.cprop with
  | x :: rest => some (x, { q with cprop := rest })
  | [] =>
    match q.cprop_X with
    | x :: rest => some (x, { q with cprop_X := rest })
    | [] => none

/-- The pin state that get_irn_pinned reports for a node. -/
inductive PinState where
  | pinned
  | floats
deriving DecidableEq, Repr

/-- A node as far as the compute dispatcher inspects it: an arbitrary
opcode id, the Block test, the Proj test, the pin state of its own
operation, the pin state of the Proj predecessor and the type of the
containing block. -/
structure DispatchNode where
  opcode : Nat
  isBlock : Bool
  isProj : Bool
  opPin : PinState
  predOpPin : PinState
  blockType : Tarval
deriving DecidableEq, Repr

/-- get_irn_pinned applied to skip_Proj of the node, as the dispatcher
does. -/
def get_irn_pinned_skip_Proj (n : DispatchNode) : PinState :=
  if n.isProj then n.predOpPin else n.opPin

/-- What the dispatcher does: set Top early, or invoke the transfer
function registered for the opcode. -/
inductive DispatchResult where
  | earlyTop
  | invoke (opcode : Nat)
deriving DecidableEq, Repr

/-- compute (combo.c lines 2495-2526): a non Block node whose skip_Proj
operation is pinned and whose block is Unreachable is set to Top without
invoking the per opcode transfer function. -/
def compute_dispatch (n : DispatchNode) : DispatchResult :=
  if n.isBlock = false ∧ get_irn_pinned_skip_Proj n = .pinned
      ∧ n.blockType = tarval_unreachable
  then .earlyTop
  else .invoke n.opcode

/-- The mode of a node as far as apply_result inspects it. -/
inductive AMode where
  | M
  | T
  | X
  | data
deriving DecidableEq, Repr

/-- A node as far as apply_result inspects it.  predType is the type of
the Proj predecessor (read in the mode M case), onlyOneReachableProj and
selIsConstant describe the Cond or Switch predecessor of a control flow
Proj, and the leader fields describe get_leader and the Phi operand
scan. -/
structure ApplyNode where
  isBlock : Bool
  isEnd : Bool
  isBad : Bool
  blockType : Tarval
  nodeType : LatticeElem
  mode : AMode
  isProj : Bool
  predIsCond : Bool
  predIsSwitch : Bool
  predType : LatticeElem
  isUnknown : Bool
  isConst : Bool
  isSymConst : Bool
  isConfirm : Bool
  onlyOneReachableProj : Bool
  selIsConstant : Bool
  isFollower : Bool
  isPhi : Bool
  leaderNeqSelf : Bool
  leaderIsUnknown : Bool
  hasUnknownPred : Bool
deriving DecidableEq, Repr

/-- The rewrite that apply_result performs on one node. -/
inductive ApplyAction where
  | keep
  | replaceBad
  | skipTopMemProj
  | replaceUnknown
  | cfAssertStop
  | replaceJmp
  | flagUnoptCF
  | replaceConst
  | replaceSymConst
  | replaceLeader
deriving DecidableEq, Repr

/-- apply_result (combo.c lines 3253-3411) as a decision function from the
node state to the rewrite performed.  cfAssertStop marks the debug assert
that a Top typed control flow node does not reach the Unknown replacement
(such nodes are handled by the earlier block level walk). -/
def apply_result (n : ApplyNode) : ApplyAction :=
  if n.isBlock ∨ n.isEnd ∨ n.isBad then .keep
  else if n.blockType = tarval_unreachable then .replaceBad
  else if n.nodeType = .tv tarval_top then
    if n.mode = .M then
      if n.isProj ∧ n.predType = .tv tarval_top then .skipTopMemProj
      else .keep
    else if n.mode = .T then .keep
    else if n.isUnknown = false then
      if n.mode = .X then .cfAssertStop else .replaceUnknown
    else .keep
  else if n.mode = .X then
    if n.isProj ∧ (n.predIsCond ∨ n.predIsSwitch) then
      if n.onlyOneReachableProj then .replaceJmp
      else if n.predIsSwitch ∧ n.selIsConstant then .flagUnoptCF
      else .keep
    else .keep
  else if is_tarval n.nodeType ∧ tarval_is_constant (getTarval n.nodeType) then
    if n.isConst = false ∧ n.mode ≠ .T then .replaceConst else .keep
  else if isEntity n.nodeType then
    if n.isSymConst = false then .replaceSymConst else .keep
  else if n.isConfirm then .keep
  else if n.leaderNeqSelf then
    if n.isFollower ∧ n.isPhi ∧ n.leaderIsUnknown = false ∧ n.hasUnknownPred
    then .keep
    else .replaceLeader
  else .keep


/-- A partition member as the race splitter tail moves it: the node id and
its follower flag. -/
structure RaceNode where
  nid : Nat
  is_follower : Bool
deriving DecidableEq, Repr

/-- The leaders among a node list (nodes with the follower flag clear). -/
def count_leaders (l : List RaceNode) : Nat :=
  (l.filter (fun n => n.is_follower = false)).length

/-- The tail of the race splitter (combo.c lines 1259-1299): the winner
walked set is moved into the fresh partition X-prime (followers to its
Follower list, leaders to its Leader list), the moved leaders are
subtracted from the leader count of X, and X-prime is enqueued on the
worklist unconditionally by the add_to_worklist call at line 1299.
Returns the remaining leader count of X, the leader count of X-prime at
the move, and which partition is enqueued. -/
def race_split_finish (xLeaderCount : Nat) (walked : List RaceNode) :
    Nat × Nat × WlChoice :=
  let n := count_leaders walked
  (xLeaderCount - n, n, WlChoice.zPrime)


end Combo

/-- Claim C1, counterexample: with the configuration installed by combo()
(tarval_UNKNOWN = Top), a false Proj whose current type is not Reachable
and whose selector is Top is set Reachable, not Unreachable as claimed. -/
theorem Combo.C1_top_selector_false_proj_cex :
    Combo.compute_Proj_Cond Combo.combo_tarval_UNKNOWN false
      Combo.Tarval.top Combo.Tarval.top = Combo.tarval_reachable
    ∧ Combo.tarval_reachable ≠ Combo.tarval_unreachable := by
  decide

/-- Claim C1, amended: under the configuration installed by combo(),
compute_Proj_Cond latches Reachable, follows a decided boolean selector,
enables both Projs on Bottom, and on a Top selector sets the true Proj
Unreachable but the false Proj Reachable. -/
theorem Combo.C1_proj_cond_amended (isTrueProj : Bool) (cur sel : Combo.Tarval) :
    Combo.compute_Proj_Cond Combo.combo_tarval_UNKNOWN isTrueProj cur sel
      = Combo.proj_cond_amended_spec isTrueProj cur sel := by
  unfold Combo.compute_Proj_Cond Combo.proj_cond_amended_spec
  have hU : Combo.combo_tarval_UNKNOWN = Combo.tarval_top := by decide
  rw [hU]
  by_cases h1 : cur = Combo.tarval_reachable <;>
    by_cases h2 : sel = Combo.tarval_b_false <;>
      by_cases h3 : sel = Combo.tarval_b_true <;>
        by_cases h4 : sel = Combo.tarval_bottom <;>
          cases isTrueProj <;>
            simp_all [Combo.tarval_b_false, Combo.tarval_b_true,
              Combo.tarval_bottom, Combo.tarval_reachable,
              Combo.tarval_unreachable, Combo.tarval_top]

/-- Claim C2, counterexample: the combo() entry point hardcodes
opt_unknown on, hence the transfer function for Unknown assigns Top in
the default configuration, not Bottom. -/
theorem Combo.C2_unknown_default_cex :
    Combo.compute_Unknown Combo.combo_tarval_UNKNOWN = Combo.tarval_top
    ∧ Combo.tarval_top ≠ Combo.tarval_bottom := by
  decide

/-- Claim C2, amended: combo() sets opt_unknown unconditionally, so the
default configuration assigns Top to Unknown nodes; Bottom (tarval_bad)
would be assigned only in the alternative configuration with opt_unknown
cleared, which no code path selects. -/
theorem Combo.C2_unknown_default_amended :
    Combo.combo_opt_unknown = true
    ∧ Combo.compute_Unknown Combo.combo_tarval_UNKNOWN = Combo.tarval_top
    ∧ Combo.compute_Unknown Combo.tarval_bad = Combo.tarval_bottom := by
  decide

/-- Claim C3, counterexample: verify_type also accepts a transition into
Reachable: the step from the constant 1 to Reachable is accepted by the
code although it is outside the three cases the claim allows. -/
theorem Combo.C3_verify_type_cex :
    Combo.verify_type_accepts
      (.tv (.intval ⟨0, false⟩ 1)) (.tv Combo.tarval_reachable) = true
    ∧ ¬ Combo.mono_claim_ok
      (.tv (.intval ⟨0, false⟩ 1)) (.tv Combo.tarval_reachable) := by
  constructor
  · decide
  · intro h
    rcases h with h | h | h <;> simp [Combo.tarval_top, Combo.tarval_bottom,
      Combo.tarval_reachable] at h

/-- Claim C3, amended: the debug monotonicity check accepts x to y exactly
when x = Top, or y = Bottom, or y = Reachable, or x = y. -/
theorem Combo.C3_verify_type_amended (old new : Combo.LatticeElem) :
    Combo.verify_type_accepts old new = true
      ↔ (old = .tv Combo.tarval_top ∨ new = .tv Combo.tarval_bottom
         ∨ new = .tv Combo.tarval_reachable ∨ old = new) := by
  unfold Combo.verify_type_accepts
  by_cases h1 : old = new <;>
    by_cases h2 : old = .tv Combo.tarval_top <;>
      by_cases h3 : new = .tv Combo.tarval_bottom <;>
        by_cases h4 : new = .tv Combo.tarval_reachable <;>
          simp [h1, h2, h3, h4]

/-- Claim C4, counterexample: compute_Eor applies no floating point check
in its congruence branch, so an Eor whose operands share a partition, are
not both constants and have a floating mode still produces the algebraic
zero, contradicting the claim for the Eor case. -/
theorem Combo.C4_eor_float_cex :
    Combo.compute_Eor Combo.tarval_eor_oracle Combo.eorFloatState
      = .tv (Combo.get_mode_null Combo.floatMode)
    ∧ Combo.eorFloatState.lPart = Combo.eorFloatState.rPart
    ∧ Combo.eorFloatState.lMode.isFloat = true
    ∧ ¬(Combo.is_con Combo.eorFloatState.aType = true
        ∧ Combo.is_con Combo.eorFloatState.bType = true) := by
  decide

/-- Claim C4, amended: when the operands are not both constants, compute_Sub
and compute_Cmp produce the algebraic result only if both operands lie in
the same partition and the left operand mode is non floating; compute_Eor
produces the algebraic zero only if both operands lie in the same
partition, with no floating point restriction. -/
theorem Combo.C4_same_partition_algebraic
    (tvSub : Combo.Tarval → Combo.Tarval → Combo.IRMode → Combo.Tarval)
    (tvEor : Combo.Tarval → Combo.Tarval → Combo.Tarval)
    (stS stE : Combo.BinState) (stC : Combo.CmpState)
    (hS : ¬(Combo.is_con stS.aType = true ∧ Combo.is_con stS.bType = true))
    (hE : ¬(Combo.is_con stE.aType = true ∧ Combo.is_con stE.bType = true))
    (hC : ¬(Combo.is_con stC.aType = true ∧ Combo.is_con stC.bType = true)) :
    (Combo.compute_Sub tvSub stS = .tv (Combo.get_mode_null stS.nodeMode) →
      stS.rPart = stS.lPart ∧ stS.lMode.isFloat = false)
    ∧ (Combo.compute_Eor tvEor stE = .tv (Combo.get_mode_null stE.nodeMode) →
      stE.rPart = stE.lPart)
    ∧ ((Combo.compute_Cmp stC = .tv Combo.tarval_b_true
        ∨ Combo.compute_Cmp stC = .tv Combo.tarval_b_false) →
      stC.rPart = stC.lPart ∧ stC.lMode.isFloat = false) := by
  refine ⟨?_, ?_, ?_⟩
  · intro h
    unfold Combo.compute_Sub at h
    simp only [Combo.tarval_top, Combo.tarval_bottom, Combo.get_mode_null] at h
    by_cases hT : stS.aType = .tv Combo.Tarval.top ∨ stS.bType = .tv Combo.Tarval.top
    · rw [if_pos hT] at h
      exact absurd h (by simp)
    · rw [if_neg hT, if_neg hS] at h
      by_cases hpart : stS.rPart = stS.lPart ∧ stS.lMode.isFloat = false
      · exact hpart
      · rw [if_neg hpart] at h
        exact absurd h (by simp)
  · intro h
    unfold Combo.compute_Eor at h
    simp only [Combo.tarval_top, Combo.tarval_bottom, Combo.get_mode_null] at h
    by_cases hT : stE.aType = .tv Combo.Tarval.top ∨ stE.bType = .tv Combo.Tarval.top
    · rw [if_pos hT] at h
      exact absurd h (by simp)
    · rw [if_neg hT, if_neg hE] at h
      by_cases hpart : stE.rPart = stE.lPart
      · exact hpart
      · rw [if_neg hpart] at h
        exact absurd h (by simp)
  · by_cases hT : stC.aType = .tv Combo.Tarval.top ∨ stC.bType = .tv Combo.Tarval.top
    · intro h
      unfold Combo.compute_Cmp at h
      simp only [Combo.tarval_top, Combo.tarval_bottom, Combo.tarval_undefined,
        Combo.tarval_b_true, Combo.tarval_b_false] at h
      rw [if_pos hT] at h
      rcases h with h | h <;> exact absurd h (by simp)
    · intro h
      unfold Combo.compute_Cmp at h
      simp only [Combo.tarval_top, Combo.tarval_bottom, Combo.tarval_undefined,
        Combo.tarval_b_true, Combo.tarval_b_false] at h
      rw [if_neg hT, if_neg hC] at h
      by_cases hpart : stC.rPart = stC.lPart ∧ stC.lMode.isFloat = false
      · exact hpart
      · rw [if_neg hpart] at h
        rcases h with h | h <;> exact absurd h (by simp)

/-- Witness for the amended C4 theorem: a non floating Sub of two Bottom
operands in one partition with current type zero evaluates to zero, and the
theorem yields the same partition and non floating conclusions there. -/
theorem Combo.C4_same_partition_algebraic_witness :
    (¬(Combo.is_con (Combo.LatticeElem.tv Combo.tarval_bottom) = true
       ∧ Combo.is_con (Combo.LatticeElem.tv Combo.tarval_bottom) = true))
    ∧ ((⟨.tv Combo.tarval_bottom, .tv Combo.tarval_bottom, 0, 0, ⟨0, false⟩,
        ⟨0, false⟩, .tv (Combo.get_mode_null ⟨0, false⟩)⟩ : Combo.BinState).rPart
      = (⟨.tv Combo.tarval_bottom, .tv Combo.tarval_bottom, 0, 0, ⟨0, false⟩,
        ⟨0, false⟩, .tv (Combo.get_mode_null ⟨0, false⟩)⟩ : Combo.BinState).lPart) := by
  have h := Combo.C4_same_partition_algebraic
    Combo.tarval_sub_oracle Combo.tarval_eor_oracle
    ⟨.tv Combo.tarval_bottom, .tv Combo.tarval_bottom, 0, 0, ⟨0, false⟩,
      ⟨0, false⟩, .tv (Combo.get_mode_null ⟨0, false⟩)⟩
    ⟨.tv Combo.tarval_bottom, .tv Combo.tarval_bottom, 0, 0, ⟨0, false⟩,
      ⟨0, false⟩, .tv (Combo.get_mode_null ⟨0, false⟩)⟩
    ⟨.tv Combo.tarval_bottom, .tv Combo.tarval_bottom, 0, 0, ⟨0, false⟩,
      true, .tv Combo.tarval_b_true, Combo.tarval_bad⟩
    (by decide) (by decide) (by decide)
  exact ⟨by decide, (h.1 (by decide)).1 ▸ rfl⟩

/-- Claim C6, counterexample: when Z is already on the worklist,
update_worklist enqueues Z prime even when Z prime is the strictly larger
half: with Z of 2 leaders already on the worklist and Z prime of 5
leaders, the enqueued half has more leaders than the other half.  On the
race path, the winner walked set of 3 leaders split out of a partition of
4 leaders is enqueued although only 1 leader remains behind: the race
splitter enqueues X-prime without comparing sizes. -/
theorem Combo.C6_larger_enqueued_cex :
    (Combo.update_worklist ⟨2, true⟩ ⟨5, false⟩ = Combo.WlChoice.zPrime
    ∧ Combo.other_leader_count ⟨2, true⟩ ⟨5, false⟩
      < Combo.enqueued_leader_count ⟨2, true⟩ ⟨5, false⟩)
    ∧ (Combo.race_split_finish 4 [⟨0, false⟩, ⟨1, false⟩, ⟨2, false⟩]
      = (1, 3, Combo.WlChoice.zPrime)
    ∧ (1 : Nat) < 3) := by
  decide

/-- Claim C6, amended: on the no-follower fast path, when Z is not already
on the worklist the half that update_worklist enqueues has at most as many
leaders as the other half (ties go to Z); when Z is already on the
worklist, Z prime is enqueued unconditionally, whatever its size, so that
both halves are on the worklist.  On the race path, the winner walked set
becomes X-prime (its leaders leaving the leader count of X, which the two
returned counts partition) and X-prime is always the partition enqueued,
irrespective of the relative sizes. -/
theorem Combo.C6_update_worklist_amended (z zp : Combo.PartitionInfo)
    (xc : Nat) (walked : List Combo.RaceNode) :
    (z.on_worklist = false →
      Combo.enqueued_leader_count z zp ≤ Combo.other_leader_count z zp)
    ∧ (z.on_worklist = true →
      Combo.update_worklist z zp = Combo.WlChoice.zPrime)
    ∧ ((Combo.race_split_finish xc walked).2.2 = Combo.WlChoice.zPrime
    ∧ (Combo.count_leaders walked ≤ xc →
      (Combo.race_split_finish xc walked).1
        + (Combo.race_split_finish xc walked).2.1 = xc)) := by
  refine ⟨?_, ?_, ?_, ?_⟩
  · intro hw
    unfold Combo.enqueued_leader_count Combo.other_leader_count
      Combo.update_worklist
    rw [hw]
    by_cases h : zp.n_leader < z.n_leader <;> simp [h] <;> omega
  · intro hw
    unfold Combo.update_worklist
    simp [hw]
  · rfl
  · intro hcnt
    unfold Combo.race_split_finish
    simp
    omega

/-- Witness for the amended C6 theorem at Z with 3 leaders off the
worklist and Z prime with 1 leader, and a race move of one leader out of
a partition of 4. -/
theorem Combo.C6_update_worklist_amended_witness :
    (Combo.enqueued_leader_count ⟨3, false⟩ ⟨1, false⟩
      ≤ Combo.other_leader_count ⟨3, false⟩ ⟨1, false⟩)
    ∧ (Combo.race_split_finish 4 [⟨5, false⟩]).1
      + (Combo.race_split_finish 4 [⟨5, false⟩]).2.1 = 4 :=
  ⟨(Combo.C6_update_worklist_amended ⟨3, false⟩ ⟨1, false⟩ 4 [⟨5, false⟩]).1 rfl,
   (Combo.C6_update_worklist_amended ⟨3, false⟩ ⟨1, false⟩ 4
     [⟨5, false⟩]).2.2.2 (by decide)⟩

/-- Helper: the inner meet with a non Top, non Bottom running value yields
Bottom when a Bottom entry or a disagreeing entry appears, else the
running value. -/
theorem Combo.meetList_run (rest : List Combo.LatticeElem) (ty : Combo.LatticeElem)
    (h1 : ty ≠ .tv Combo.tarval_top) (_h2 : ty ≠ .tv Combo.tarval_bottom) :
    Combo.meetList ty rest
      = if (Combo.LatticeElem.tv Combo.tarval_bottom) ∈ rest then .tv Combo.tarval_bottom
        else if ∀ x ∈ rest, x = ty then ty
        else .tv Combo.tarval_bottom := by
  induction rest with
  | nil => simp [Combo.meetList]
  | cons c rest ih =>
    simp only [Combo.meetList]
    by_cases hc : c = .tv Combo.tarval_bottom
    · rw [if_pos hc, if_pos (by rw [← hc]; exact List.mem_cons_self _ _)]
    · have hmr : ((Combo.LatticeElem.tv Combo.tarval_bottom) ∈ c :: rest)
          ↔ (Combo.LatticeElem.tv Combo.tarval_bottom) ∈ rest := by
        constructor
        · intro hh
          rcases List.mem_cons.mp hh with hh | hh
          · exact absurd hh.symm hc
          · exact hh
        · intro hh
          exact List.mem_cons_of_mem _ hh
      rw [if_neg hc, if_neg h1]
      by_cases hty : ty = c
      · rw [if_neg (fun hh => hh hty), ih]
        by_cases hb : (Combo.LatticeElem.tv Combo.tarval_bottom) ∈ rest
        · rw [if_pos hb, if_pos (hmr.mpr hb)]
        · rw [if_neg hb, if_neg (fun hh => hb (hmr.mp hh))]
          have hall : (∀ x ∈ c :: rest, x = ty) ↔ ∀ x ∈ rest, x = ty := by
            constructor
            · intro hh x hx
              exact hh x (List.mem_cons_of_mem _ hx)
            · intro hh x hx
              rcases List.mem_cons.mp hx with hx | hx
              · rw [hx]
                exact hty.symm
              · exact hh x hx
          by_cases ha : ∀ x ∈ rest, x = ty
          · rw [if_pos ha, if_pos (hall.mpr ha)]
          · rw [if_neg ha, if_neg (fun hh => ha (hall.mp hh))]
      · rw [if_pos hty]
        by_cases hb : (Combo.LatticeElem.tv Combo.tarval_bottom) ∈ c :: rest
        · rw [if_pos hb]
        · rw [if_neg hb,
            if_neg (fun hh => hty ((hh c (List.mem_cons_self _ _)).symm))]

/-- Helper: the inner meet started at Top computes the claimed meet on a
Top free list. -/
theorem Combo.meetList_top_eq_claim (cs : List Combo.LatticeElem)
    (h : (Combo.LatticeElem.tv Combo.tarval_top) ∉ cs) :
    Combo.meetList (.tv Combo.tarval_top) cs = Combo.phi_meet_claim cs := by
  cases cs with
  | nil => rfl
  | cons c rest =>
    have hcTop : c ≠ .tv Combo.tarval_top := by
      intro hh
      exact h (hh ▸ List.mem_cons_self _ _)
    simp only [Combo.meetList, Combo.phi_meet_claim]
    by_cases hc : c = .tv Combo.tarval_bottom
    · rw [if_pos hc, if_pos (by rw [← hc]; exact List.mem_cons_self _ _)]
    · have hmr : ((Combo.LatticeElem.tv Combo.tarval_bottom) ∈ c :: rest)
          ↔ (Combo.LatticeElem.tv Combo.tarval_bottom) ∈ rest := by
        constructor
        · intro hh
          rcases List.mem_cons.mp hh with hh | hh
          · exact absurd hh.symm hc
          · exact hh
        · intro hh
          exact List.mem_cons_of_mem _ hh
      rw [if_neg hc, if_pos True.intro, Combo.meetList_run rest c hcTop hc]
      by_cases hb : (Combo.LatticeElem.tv Combo.tarval_bottom) ∈ rest
      · rw [if_pos hb, if_pos (hmr.mpr hb)]
      · rw [if_neg hb, if_neg (fun hh => hb (hmr.mp hh))]
        have hall : (∀ x ∈ rest, x = c) ↔ Combo.allSame (c :: rest) := by
          constructor
          · intro hh x hx y hy
            rcases List.mem_cons.mp hx with hx | hx <;>
              rcases List.mem_cons.mp hy with hy | hy
            · rw [hx, hy]
            · rw [hx, hh y hy]
            · rw [hh x hx, hy]
            · rw [hh x hx, hh y hy]
          · intro hh x hx
            exact hh x (List.mem_cons_of_mem _ hx) c (List.mem_cons_self _ _)
        by_cases ha : ∀ x ∈ rest, x = c
        · rw [if_pos ha, if_pos (hall.mp ha)]
        · rw [if_neg ha, if_neg (fun hh => ha (hall.mpr hh))]

/-- Helper: the loop of compute_Phi equals the inner meet of the
contributing inputs, when every control flow predecessor type is either
Reachable or Unreachable. -/
theorem Combo.phi_meet_loop_eq_meetList
    (l : List (Combo.Tarval × Combo.LatticeElem)) (ty : Combo.LatticeElem)
    (h : ∀ p ∈ l, p.1 = Combo.tarval_reachable ∨ p.1 = Combo.tarval_unreachable) :
    Combo.phi_meet_loop ty l = Combo.meetList ty (Combo.phi_contributing l) := by
  induction l generalizing ty with
  | nil => rfl
  | cons p rest ih =>
    have hp := h p (List.mem_cons_self _ _)
    have hrest : ∀ q ∈ rest,
        q.1 = Combo.tarval_reachable ∨ q.1 = Combo.tarval_unreachable :=
      fun q hq => h q (List.mem_cons_of_mem _ hq)
    simp only [Combo.phi_meet_loop]
    by_cases hskip : p.1 = Combo.tarval_unreachable ∨ p.2 = .tv Combo.tarval_top
    · have hfilt : Combo.phi_contributing (p :: rest)
          = Combo.phi_contributing rest := by
        unfold Combo.phi_contributing
        rw [List.filter_cons]
        have hnc : ¬(p.1 = Combo.tarval_reachable ∧ p.2 ≠ .tv Combo.tarval_top) := by
          rcases hskip with h1 | h1
          · intro hcon
            rw [h1] at hcon
            exact absurd hcon.1 (by decide)
          · intro hcon
            exact hcon.2 h1
        simp [hnc]
      rw [if_pos hskip, hfilt]
      exact ih _ hrest
    · have hr : p.1 = Combo.tarval_reachable := by
        rcases hp with h1 | h1
        · exact h1
        · exact absurd (Or.inl h1) hskip
      have hnt : p.2 ≠ .tv Combo.tarval_top := fun hh => hskip (Or.inr hh)
      have hfilt : Combo.phi_contributing (p :: rest)
          = p.2 :: Combo.phi_contributing rest := by
        unfold Combo.phi_contributing
        rw [List.filter_cons]
        simp [hr, hnt]
      rw [if_neg hskip, hfilt]
      simp only [Combo.meetList]
      by_cases hbot : p.2 = .tv Combo.tarval_bottom
      · rw [if_pos hbot, if_pos hbot]
      · rw [if_neg hbot, if_neg hbot]
        by_cases htop : ty = .tv Combo.tarval_top
        · rw [if_pos htop, if_pos htop]
          exact ih _ hrest
        · rw [if_neg htop, if_neg htop]
          by_cases hne : ty = p.2
          · rw [if_neg (fun hh => hh hne), if_neg (fun hh => hh hne)]
            exact ih _ hrest
          · rw [if_pos hne, if_pos hne]

/-- Helper: a Top element is never among the contributing inputs. -/
theorem Combo.top_not_mem_phi_contributing
    (l : List (Combo.Tarval × Combo.LatticeElem)) :
    (Combo.LatticeElem.tv Combo.tarval_top) ∉ Combo.phi_contributing l := by
  intro h
  unfold Combo.phi_contributing at h
  rcases List.mem_map.mp h with ⟨p, hp, hpe⟩
  have hf := List.of_mem_filter hp
  simp only [decide_eq_true_eq] at hf
  exact hf.2 hpe

/-- Helper: the contributing inputs of the reversed list are the reversed
contributing inputs. -/
theorem Combo.phi_contributing_reverse
    (l : List (Combo.Tarval × Combo.LatticeElem)) :
    Combo.phi_contributing l.reverse = (Combo.phi_contributing l).reverse := by
  unfold Combo.phi_contributing
  rw [List.filter_reverse, List.map_reverse]

/-- Helper: the claimed meet only depends on which elements occur in the
list. -/
theorem Combo.phi_meet_claim_mem_congr (cs cs2 : List Combo.LatticeElem)
    (hmem : ∀ x, x ∈ cs ↔ x ∈ cs2) :
    Combo.phi_meet_claim cs = Combo.phi_meet_claim cs2 := by
  cases cs with
  | nil =>
    cases cs2 with
    | nil => rfl
    | cons c2 r2 =>
      exact absurd ((hmem c2).mpr (List.mem_cons_self _ _)) (by simp)
  | cons c rest =>
    cases cs2 with
    | nil =>
      exact absurd ((hmem c).mp (List.mem_cons_self _ _)) (by simp)
    | cons c2 r2 =>
      simp only [Combo.phi_meet_claim]
      by_cases hb : (Combo.LatticeElem.tv Combo.tarval_bottom) ∈ c :: rest
      · rw [if_pos hb, if_pos ((hmem _).mp hb)]
      · rw [if_neg hb, if_neg (fun hh => hb ((hmem _).mpr hh))]
        by_cases ha : Combo.allSame (c :: rest)
        · have ha2 : Combo.allSame (c2 :: r2) :=
            fun x hx y hy => ha x ((hmem x).mpr hx) y ((hmem y).mpr hy)
          rw [if_pos ha, if_pos ha2]
          exact ha c (List.mem_cons_self _ _) c2 ((hmem c2).mpr (List.mem_cons_self _ _))
        · have ha2 : ¬ Combo.allSame (c2 :: r2) := by
            intro hh
            exact ha (fun x hx y hy => hh x ((hmem x).mp hx) y ((hmem y).mp hy))
          rw [if_neg ha, if_neg ha2]

/-- Claim C5: compute_Phi yields Top in an Unreachable block, and otherwise
meets exactly the inputs whose control flow predecessor is Reachable,
ignoring Top inputs: Top when nothing contributes, the common value when
all contributing inputs agree, Bottom on a Bottom input or disagreement.
The hypothesis records that control flow types in this pass are only ever
Reachable or Unreachable. -/
theorem Combo.C5_compute_Phi (st : Combo.PhiState)
    (h : ∀ p ∈ st.preds,
      p.1 = Combo.tarval_reachable ∨ p.1 = Combo.tarval_unreachable) :
    Combo.compute_Phi st = Combo.compute_Phi_claim st := by
  unfold Combo.compute_Phi Combo.compute_Phi_claim
  by_cases hb : st.blockType = Combo.tarval_unreachable
  · rw [if_pos hb, if_pos hb]
  · rw [if_neg hb, if_neg hb,
      Combo.phi_meet_loop_eq_meetList _ _
        (fun p hp => h p (List.mem_reverse.mp hp)),
      Combo.phi_contributing_reverse,
      Combo.meetList_top_eq_claim _
        (fun hh => Combo.top_not_mem_phi_contributing _ (List.mem_reverse.mp hh))]
    exact Combo.phi_meet_claim_mem_congr _ _ (fun x => List.mem_reverse)

/-- Witness for C5: a Phi in a reachable block with a constant 5 on a
Reachable edge and a constant 7 on an Unreachable edge evaluates to 5 on
both sides. -/
theorem Combo.C5_compute_Phi_witness :
    (Combo.compute_Phi ⟨Combo.tarval_reachable,
      [(Combo.tarval_reachable, .tv (.intval ⟨0, false⟩ 5)),
       (Combo.tarval_unreachable, .tv (.intval ⟨0, false⟩ 7))]⟩
      = Combo.compute_Phi_claim ⟨Combo.tarval_reachable,
      [(Combo.tarval_reachable, .tv (.intval ⟨0, false⟩ 5)),
       (Combo.tarval_unreachable, .tv (.intval ⟨0, false⟩ 7))]⟩)
    ∧ Combo.compute_Phi ⟨Combo.tarval_reachable,
      [(Combo.tarval_reachable, .tv (.intval ⟨0, false⟩ 5)),
       (Combo.tarval_unreachable, .tv (.intval ⟨0, false⟩ 7))]⟩
      = .tv (.intval ⟨0, false⟩ 5) :=
  ⟨Combo.C5_compute_Phi _ (by decide), by decide⟩

/-- Claim C7, counterexample: a Top typed memory mode Proj whose
predecessor is also Top typed is rewritten by apply_result (exchanged for
the memory input of the predecessor), so not every Top typed memory node
is left unchanged. -/
theorem Combo.C7_top_mem_proj_cex :
    Combo.apply_result
      ⟨false, false, false, Combo.tarval_reachable, .tv Combo.tarval_top,
       .M, true, false, false, .tv Combo.tarval_top, false, false, false,
       false, false, false, false, false, false, false, false⟩
      = Combo.ApplyAction.skipTopMemProj
    ∧ Combo.ApplyAction.skipTopMemProj ≠ Combo.ApplyAction.keep := by
  decide

/-- Claim C7, amended: for a Top typed node in a reachable block, tuple
nodes are left unchanged; memory nodes are left unchanged except that a
memory Proj with a Top typed predecessor is replaced by the memory input
of that predecessor; every other node is replaced by an Unknown node
unless it already is one (control flow nodes cannot reach the replacement
and trip the debug assertion instead). -/
theorem Combo.C7_apply_top_amended (n : Combo.ApplyNode)
    (h1 : ¬(n.isBlock ∨ n.isEnd ∨ n.isBad))
    (h2 : n.blockType ≠ Combo.tarval_unreachable)
    (h3 : n.nodeType = .tv Combo.tarval_top) :
    (n.mode = .T → Combo.apply_result n = .keep)
    ∧ (n.mode = .M → Combo.apply_result n
        = if n.isProj ∧ n.predType = .tv Combo.tarval_top
          then .skipTopMemProj else .keep)
    ∧ (n.mode ≠ .M → n.mode ≠ .T →
        Combo.apply_result n
          = if n.isUnknown then .keep
            else if n.mode = .X then .cfAssertStop else .replaceUnknown) := by
  unfold Combo.apply_result
  rw [if_neg h1, if_neg h2, if_pos h3]
  refine ⟨?_, ?_, ?_⟩
  · intro hm
    simp [hm]
  · intro hm
    simp [hm]
  · intro hm1 hm2
    rw [if_neg hm1, if_neg hm2]
    by_cases hu : n.isUnknown
    · simp [hu]
    · simp [hu]

/-- Witness for the amended C7 theorem: a Top typed tuple node in a
reachable block is left unchanged. -/
theorem Combo.C7_apply_top_amended_witness :
    Combo.apply_result
      ⟨false, false, false, Combo.tarval_reachable, .tv Combo.tarval_top,
       .T, false, false, false, .tv Combo.tarval_bottom, false, false, false,
       false, false, false, false, false, false, false, false⟩
      = Combo.ApplyAction.keep :=
  (Combo.C7_apply_top_amended _ (by decide) (by decide) (by decide)).1 rfl

/-- Claim C8: a node classified for the cprop queue as a Cond, a Switch or
a Proj of one is appended to the cprop_X list and never to the ordinary
list, and the drain step takes a node of the cprop_X class only when the
ordinary cprop list is empty (assuming, as add_to_cprop guarantees, that
the ordinary list holds no cprop_X class node). -/
theorem Combo.C8_cprop_X_after_data (n : Combo.CNode) (q q2 : Combo.CpropQueues)
    (m : Combo.CNode)
    (hq : ∀ x ∈ q.cprop, Combo.goes_to_cprop_X x = false) :
    (Combo.goes_to_cprop_X n = true →
      (Combo.add_to_cprop n q).cprop = q.cprop
      ∧ n ∈ (Combo.add_to_cprop n q).cprop_X)
    ∧ (Combo.cprop_pick q = some (m, q2) →
      Combo.goes_to_cprop_X m = true → q.cprop = []) := by
  constructor
  · intro hx
    unfold Combo.add_to_cprop
    rw [if_pos hx]
    exact ⟨rfl, List.mem_append.mpr (Or.inr (List.mem_singleton.mpr rfl))⟩
  · intro hpick hX
    cases hcq : q.cprop with
    | nil => rfl
    | cons x rest =>
      unfold Combo.cprop_pick at hpick
      rw [hcq] at hpick
      simp only [Option.some_inj] at hpick
      have hm : m = x := by
        have := congrArg Prod.fst hpick
        simpa using this.symm
      have hfalse := hq x (by rw [hcq]; exact List.mem_cons_self _ _)
      rw [← hm] at hfalse
      rw [hfalse] at hX
      cases hX

/-- Witness for C8: a Proj of a Cond lands on the cprop_X list, and the
pick from a queue with an empty ordinary list satisfies the ordering
conclusion. -/
theorem Combo.C8_cprop_X_after_data_witness :
    (Combo.add_to_cprop ⟨0, .Other, true, .Cond⟩ ⟨[], []⟩).cprop = []
    ∧ (⟨0, .Other, true, .Cond⟩ : Combo.CNode)
      ∈ (Combo.add_to_cprop ⟨0, .Other, true, .Cond⟩ ⟨[], []⟩).cprop_X :=
  (Combo.C8_cprop_X_after_data ⟨0, .Other, true, .Cond⟩ ⟨[], []⟩ ⟨[], []⟩
    ⟨0, .Other, true, .Cond⟩ (by intro x hx; cases hx)).1 (by decide)

/-- Claim C9: for every non Block node whose operation is pinned, when the
containing block is Unreachable the dispatcher answers Top without
invoking any per opcode transfer function, uniformly in the opcode.  The
hypothesis hproj records the libfirm fact that the Proj operation always
floats, so a pinned node is never a Proj. -/
theorem Combo.C9_pinned_unreachable_block (n : Combo.DispatchNode)
    (hb : n.isBlock = false)
    (hpin : n.opPin = Combo.PinState.pinned)
    (hproj : n.isProj = true → n.opPin = Combo.PinState.floats)
    (hblk : n.blockType = Combo.tarval_unreachable) :
    Combo.compute_dispatch n = .earlyTop := by
  have hnp : n.isProj = false := by
    cases hcase : n.isProj
    · rfl
    · rw [hproj hcase] at hpin
      cases hpin
  unfold Combo.compute_dispatch
  rw [if_pos ⟨hb, by simp [Combo.get_irn_pinned_skip_Proj, hnp, hpin], hblk⟩]

/-- Witness for C9: a pinned non Block node with opcode 7 in an
Unreachable block takes the early Top exit. -/
theorem Combo.C9_pinned_unreachable_block_witness :
    Combo.compute_dispatch
      ⟨7, false, false, .pinned, .floats, Combo.tarval_unreachable⟩
      = Combo.DispatchResult.earlyTop :=
  Combo.C9_pinned_unreachable_block _ rfl rfl (by decide) rfl

/-- Claim C10: a follower Phi with an Unknown operand whose leader is not
an Unknown is never replaced by its partition leader; when the node
reaches the congruence branch of apply_result it is kept in the graph. -/
theorem Combo.C10_follower_phi_unknown_kept (n : Combo.ApplyNode)
    (hf : n.isFollower = true) (hp : n.isPhi = true)
    (hu : n.hasUnknownPred = true) (hl : n.leaderIsUnknown = false) :
    Combo.apply_result n ≠ Combo.ApplyAction.replaceLeader
    ∧ (¬(n.isBlock ∨ n.isEnd ∨ n.isBad) →
      n.blockType ≠ Combo.tarval_unreachable →
      n.nodeType ≠ .tv Combo.tarval_top →
      n.mode ≠ .X →
      ¬(Combo.is_tarval n.nodeType = true
        ∧ Combo.tarval_is_constant (Combo.getTarval n.nodeType) = true) →
      Combo.isEntity n.nodeType = false →
      n.isConfirm = false →
      Combo.apply_result n = .keep) := by
  constructor
  · unfold Combo.apply_result
    split_ifs <;> simp_all
  · intro g1 g2 g3 g4 g5 g6 g7
    unfold Combo.apply_result
    rw [if_neg g1, if_neg g2, if_neg g3, if_neg g4, if_neg g5,
      if_neg (by rw [g6]; exact Bool.false_ne_true), if_neg (by rw [g7]; exact Bool.false_ne_true)]
    by_cases hlns : n.leaderNeqSelf
    · rw [if_pos hlns, if_pos ⟨hf, hp, hl, hu⟩]
    · rw [if_neg hlns]

/-- Witness for C10: a concrete follower Phi with an Unknown operand, a
non Unknown leader and Bottom type is kept. -/
theorem Combo.C10_follower_phi_unknown_kept_witness :
    Combo.apply_result
      ⟨false, false, false, Combo.tarval_reachable, .tv Combo.tarval_bottom,
       .data, false, false, false, .tv Combo.tarval_bottom, false, false,
       false, false, false, false, true, true, true, false, true⟩
      = Combo.ApplyAction.keep :=
  (Combo.C10_follower_phi_unknown_kept _ rfl rfl rfl rfl).2 (by decide)
    (by decide) (by decide) (by decide) (by decide) (by decide) (by decide)
